import Mathlib

/-!
Shallow embedding of the feed-ingestion core of the news-aggregator repository.

The embedded code lives in:
  * src/lambdas/python/feed_item_manager/index.py  (item persistence, health updates,
    queue-consumer handler),
  * src/lambdas/python/feed_manager/index.py       (feed registration),
  * src/lambdas/python/feed_scheduler/index.py     (schedule evaluation).

The DynamoDB table is modelled as a list of records keyed by (PK, SK); `put_item`
is replace-or-append, `update_item` is read-modify-write creating the item when
absent (DynamoDB upsert semantics).  Records are Python dicts of DynamoDB
attribute values; a structure with one `Option` field per attribute name used by
the repository models them: `none` is an omitted attribute, so structural
equality of the structure coincides with Python `==` on the corresponding dicts
(including the order-sensitive comparison of the list stored under an "SS" key).

External collaborators are parameters: `feedparser.parse` is a function
argument, `datetime.strptime` of the scheduler is a function argument returning
an abstract epoch-second count, `uuid.uuid4` is a parameter of registration,
`datetime.now()` is a timestamp-string parameter.  `boto3` batch_get_item is
given DynamoDB's documented failure behaviour on an empty or duplicated key
list, which the source relies on.
-/

/-- DynamoDB record as used by this repository: one optional field per attribute
name that any of the lambdas ever writes; `none` models an absent attribute. -/
structure DBRecord where
  PK : String
  SK : String
  title : Option String := none
  link : Option String := none
  description : Option String := none
  author : Option String := none
  published : Option String := none
  updated : Option String := none
  content : Option String := none
  categories : Option (List String) := none
  comments_link : Option String := none
  feed_url : Option String := none
  feed_atom_id : Option String := none
  feed_title : Option String := none
  feed_link : Option String := none
  feed_description : Option String := none
  feed_author : Option String := none
  feed_language : Option String := none
  feed_pub_date : Option String := none
  feed_last_build_date : Option String := none
  feed_updated : Option String := none
  feed_ttl : Option String := none
  feed_image : Option String := none
  last_polled : Option String := none
  update_period : Option String := none
  update_frequency : Option String := none
  status : Option String := none
  error_count : Option Int := none
  last_error_message : Option String := none
  push_supported : Option Bool := none
  push_hub_url : Option String := none
  push_topic_url : Option String := none
  push_last_subscription : Option String := none
  version : Option String := none
deriving DecidableEq, Repr

/-- The DynamoDB table: a list of records, at most one per (PK, SK) in any state
the code produces. -/
abbrev Store := List DBRecord

/-- Key predicate for (PK, SK) lookup. -/
def keyMatch (pk sk : String) (r : DBRecord) : Bool :=
  r.PK == pk && r.SK == sk

/-- Model of DynamoDB get: first record with the given key. -/
def getItem (st : Store) (pk sk : String) : Option DBRecord :=
  st.find? (keyMatch pk sk)

/-- Replace every record sharing the key of `r` by `r`. -/
def replaceAll (st : Store) (r : DBRecord) : Store :=
  st.map (fun x => if keyMatch r.PK r.SK x then r else x)

/-- Model of a DynamoDB put: overwrite the record at the key, or append it. -/
def putItem (st : Store) (r : DBRecord) : Store :=
  if (getItem st r.PK r.SK).isSome then replaceAll st r else st ++ [r]

/-- Record carrying only its key, as DynamoDB creates on update of a missing item. -/
def emptyRecord (pk sk : String) : DBRecord := { PK := pk, SK := sk }

/-- Model of Python `prepare_item("S", value)`: keep a string only when truthy
(present and non-empty), as in all three lambdas. -/
def prepS (v : Option String) : Option String :=
  match v with
  | some s => if s = "" then none else some s
  | none => none

/-- Model of Python `prepare_item("SS", value)`: keep a string list only when
truthy (non-empty). -/
def prepSS (l : List String) : Option (List String) :=
  if l = [] then none else some l

/-- One hyperlink of a feedparser entry or feed: its `rel` and `href`. -/
structure LinkRec where
  rel : String
  href : String
deriving DecidableEq, Repr

/-- One raw feedparser entry; `none` models an absent key, mirroring
feedparser's `"guid" in entry` / `entry.get(...)` accesses. `tags` carries the
category terms. -/
structure Entry where
  guid : Option String := none
  id : Option String := none
  link : Option String := none
  title : Option String := none
  description : Option String := none
  author : Option String := none
  published : Option String := none
  updated : Option String := none
  content : Option String := none
  comments : Option String := none
  tags : List String := []
  links : List LinkRec := []
deriving DecidableEq, Repr

/-- Feed-level dictionary of a parsed document (`feed_data.feed`), with the keys
feed_manager reads. -/
structure FeedDict where
  id : Option String := none
  title : Option String := none
  link : Option String := none
  description : Option String := none
  author : Option String := none
  language : Option String := none
  pubDate : Option String := none
  lastBuildDate : Option String := none
  updated : Option String := none
  ttl : Option String := none
  image : Option String := none
  sy_updateperiod : Option String := none
  sy_updatefrequency : Option String := none
  hub : Option String := none
  tags : List String := []
  links : List LinkRec := []
deriving DecidableEq, Repr

/-- Result of the external `feedparser.parse` call. -/
structure ParsedFeed where
  bozo : Bool := false
  entries : List Entry := []
  feed : FeedDict := {}
  version : Option String := none
deriving DecidableEq, Repr

/-- Failure of a modelled DynamoDB data-plane call.  BatchGetItem rejects a
request whose key list is empty or contains duplicate keys with a
ValidationException; the source issues one unchunked BatchGetItem. -/
inductive StoreErr
  | emptyKeys
  | duplicateKeys
deriving DecidableEq, Repr

/-- The `str(exc)` of the modelled ClientError, as passed to the error path. -/
def StoreErr.message : StoreErr → String
  | .emptyKeys => "ValidationException: The provided list of item keys is empty"
  | .duplicateKeys => "ValidationException: Provided list of item keys contains duplicates"

/-- Model of `dynamodb_client.batch_get_item` on one table: returns the stored
records for the requested keys, failing as DynamoDB does when the key list is
empty or contains a duplicate key. -/
def batch_get_item (st : Store) (keys : List (String × String)) :
    Except StoreErr (List DBRecord) :=
  if keys.isEmpty then .error .emptyKeys
  else if keys.Nodup then .ok (keys.filterMap (fun k => getItem st k.1 k.2))
  else .error .duplicateKeys

/-- Fuel-indexed slicing loop behind `chunk`; the fuel bounds the number of
produced batches by the number of items, which suffices for any positive batch
size. -/
def chunkFuel : Nat → List α → Nat → List (List α)
  | 0, _, _ => []
  | _ + 1, [], _ => []
  | fuel + 1, x :: xs, batch_size =>
    (x :: xs).take batch_size :: chunkFuel fuel ((x :: xs).drop batch_size) batch_size

/-- Model of `chunk(items, batch_size)` from feed_item_manager: successive
`batch_size`-sized slices of the list. -/
def chunk (items : List α) (batch_size : Nat) : List (List α) :=
  chunkFuel items.length items batch_size

/-- Sort-key derivation of `store_feed_items` (feed_item_manager lines 91-98):
the guid / id / link fallback, `none` (`continue`) when all three are absent. -/
def itemSortKey (entry : Entry) : Option String :=
  match entry.guid with
  | some g => some ("ITEM#" ++ g)
  | none =>
    match entry.id with
    | some i => some ("ITEM#" ++ i)
    | none =>
      match entry.link with
      | some l => some ("ITEM#" ++ l)
      | none => none

/-- Item-record construction for one entry of `store_feed_items`
(feed_item_manager lines 88-131, continued): build the record for a
representable entry, keeping only truthy fields. -/
def normalizeEntry (feed_id : String) (entry : Entry) : Option DBRecord :=
  let item_pk := "FEED#" ++ feed_id
  match itemSortKey entry with
  | none => none
  | some item_sk =>
    let categories := entry.tags.dedup
    let comments_link :=
      match entry.comments with
      | some c =>
        if c = "" then ((entry.links.filter (fun l => l.rel == "replies")).map (·.href)).head?
        else some c
      | none => ((entry.links.filter (fun l => l.rel == "replies")).map (·.href)).head?
    some { PK := item_pk
           SK := item_sk
           title := prepS entry.title
           link := prepS entry.link
           description := prepS entry.description
           author := prepS entry.author
           published := prepS entry.published
           updated := prepS entry.updated
           content := prepS entry.content
           categories := prepSS categories
           comments_link := prepS comments_link }

/-- The `feed_items` list built by `store_feed_items`: normalized records of the
representable entries, in document order. -/
def feedItemsOf (feed_id : String) (feed_data : ParsedFeed) : List DBRecord :=
  feed_data.entries.filterMap (normalizeEntry feed_id)

/-- The `items_to_check_keys` of `store_feed_items`. -/
def itemKeys (items : List DBRecord) : List (String × String) :=
  items.map (fun r => (r.PK, r.SK))

/-- The change-detection filter of `store_feed_items` (lines 149-155): keep an
item when the batch-get found nothing under its key (`not existing_item`) or
the fetched record differs (`existing_item != item`, Python dict equality). -/
def items_to_write_of (fetched_items : List DBRecord) (feed_items : List DBRecord) :
    List DBRecord :=
  feed_items.filter (fun item =>
    match fetched_items.find? (keyMatch item.PK item.SK) with
    | none => true
    | some existing_item => existing_item != item)

/-- Model of `store_feed_items(feed_id, feed_data)` of feed_item_manager:
normalize the entries, batch-get the stored records under their keys, keep the
new or changed items, and batch-write them in chunks of 25.  Returns the
resulting table together with the write set `items_to_write`. -/
def store_feed_items (st : Store) (feed_id : String) (feed_data : ParsedFeed) :
    Except StoreErr (Store × List DBRecord) :=
  let feed_items := feedItemsOf feed_id feed_data
  match batch_get_item st (itemKeys feed_items) with
  | .error e => .error e
  | .ok fetched_items =>
    let items_to_write := items_to_write_of fetched_items feed_items
    .ok ((chunk items_to_write 25).foldl (fun s batch => batch.foldl putItem s) st,
         items_to_write)

/-- Model of `update_feed_on_success(feed_id, current_time)`: zero the error
state and advance `last_polled` on the feed's META record (DynamoDB update_item
creates the item when absent). -/
def update_feed_on_success (st : Store) (feed_id current_time : String) : Store :=
  let pk := "FEED#" ++ feed_id
  let sk := "META#" ++ feed_id
  let base := (getItem st pk sk).getD (emptyRecord pk sk)
  putItem st { base with
    error_count := some 0
    last_error_message := some ""
    last_polled := some current_time }

/-- Model of `update_feed_on_error(feed_id, error_message, current_time)`:
`ADD error_count 1` (starting from 0 when the attribute is absent), set the
message, and advance `last_polled`. -/
def update_feed_on_error (st : Store) (feed_id error_message current_time : String) :
    Store :=
  let pk := "FEED#" ++ feed_id
  let sk := "META#" ++ feed_id
  let base := (getItem st pk sk).getD (emptyRecord pk sk)
  putItem st { base with
    error_count := some (base.error_count.getD 0 + 1)
    last_error_message := some error_message
    last_polled := some current_time }

/-- One SQS record of a `feed_message_handler` event, with its JSON body already
decoded into the FetchTask fields. -/
structure SqsRecord where
  body_feed_id : String
  body_feed_url : String
  receiptHandle : String
deriving DecidableEq, Repr

/-- Model of `feed_message_handler`: per record, parse the feed; on `bozo` log
and continue; otherwise persist the items and on success update the feed META
and delete the message, while any persistence exception is caught, recorded via
`update_feed_on_error`, and swallowed (`continue`).  The `Except` layer is the
handler's exception channel: a `.error` would be an exception escaping to the
Lambda runtime.  Returns the final table and the receipt handles of the deleted
messages, in processing order. -/
def feed_message_handler (parse : String → ParsedFeed) (now : String) (st : Store) :
    List SqsRecord → Except String (Store × List String)
  | [] => .ok (st, [])
  | record :: rest =>
    let feed_data := parse record.body_feed_url
    if feed_data.bozo then
      feed_message_handler parse now st rest
    else
      match store_feed_items st record.body_feed_id feed_data with
      | .error exc =>
        feed_message_handler parse now
          (update_feed_on_error st record.body_feed_id (StoreErr.message exc) now) rest
      | .ok (st1, _items) =>
        let st2 := update_feed_on_success st1 record.body_feed_id now
        match feed_message_handler parse now st2 rest with
        | .error e => .error e
        | .ok (st3, deleted) => .ok (st3, record.receiptHandle :: deleted)

/-- Failure of the modelled `transact_write_items`: the condition check of the
uniqueness marker failed and DynamoDB cancelled the whole transaction. -/
inductive TxErr
  | transactionCanceled
deriving DecidableEq, Repr

/-- Model of `store_feed_metadata(feed_url, feed_data)` of feed_manager with the
generated `uuid4` as the `feed_id` parameter: build the META record (omitting
falsy fields, exactly as `prepare_item` does), then transactionally put the
uniqueness marker — conditioned on no record existing at its key — together
with the META record.  A failed condition cancels the transaction and writes
nothing. -/
def store_feed_metadata (st : Store) (feed_url feed_id : String)
    (feed_data : ParsedFeed) : Except TxErr Store :=
  let pk_value := "FEED#" ++ feed_id
  let sk_value := "META#" ++ feed_id
  let unique_key := "UNIQUE#FEED_URL#" ++ feed_url
  let f := feed_data.feed
  let hub_links := f.links.filter (fun l => l.rel == "hub")
  let topic_links := f.links.filter (fun l => l.rel == "self")
  let push_hub_url := (hub_links.map (·.href)).head?
  let push_topic_url := (topic_links.map (·.href)).head?
  let categories := f.tags
  let feed_metadata : DBRecord :=
    { PK := pk_value
      SK := sk_value
      feed_url := prepS (some feed_url)
      feed_atom_id := prepS f.id
      feed_title := prepS f.title
      feed_link := prepS f.link
      feed_description := prepS f.description
      feed_author := prepS f.author
      feed_language := prepS f.language
      feed_pub_date := prepS f.pubDate
      feed_last_build_date := prepS f.lastBuildDate
      feed_updated := prepS f.updated
      feed_ttl := prepS f.ttl
      feed_image := prepS f.image
      last_polled := prepS (some "")
      update_period := prepS (some (f.sy_updateperiod.getD "hourly"))
      update_frequency := prepS (some (f.sy_updatefrequency.getD "1"))
      status := prepS (some "active")
      error_count := some 0
      last_error_message := prepS (some "")
      push_supported := some f.hub.isSome
      push_hub_url := prepS push_hub_url
      push_topic_url := prepS push_topic_url
      push_last_subscription := prepS (some "")
      categories := prepSS categories
      version := prepS feed_data.version }
  if (getItem st unique_key unique_key).isSome then .error .transactionCanceled
  else .ok (putItem (putItem st (emptyRecord unique_key unique_key)) feed_metadata)

/-- Model of the `create_feed` POST /feeds route of feed_manager, after input
validation, with the parse result and generated uuid as parameters: 400 on
`bozo`, 400 conflict on a cancelled transaction (store untouched), 200 on
success.  Returns the HTTP status code and the resulting table. -/
def create_feed (st : Store) (feed_url feed_id : String) (feed_data : ParsedFeed) :
    Nat × Store :=
  if feed_data.bozo then (400, st)
  else
    match store_feed_metadata st feed_url feed_id feed_data with
    | .error .transactionCanceled => (400, st)
    | .ok st2 => (200, st2)

/-- Exception of the modelled scheduler loop body: `KeyError` on a subscript of
a missing attribute, `ValueError` from `strptime`/`int`, `IndexError` on the
`split("#")[1]` subscript. -/
inductive SchedErr
  | keyError
  | valueError
  | indexError
deriving DecidableEq, Repr

/-- Model of `PERIOD_TO_SECONDS.get(update_period, 3600)` of feed_scheduler. -/
def period_to_seconds (p : String) : Int :=
  match p with
  | "hourly" => 3600
  | "daily" => 86400
  | "weekly" => 604800
  | "monthly" => 2592000
  | _ => 3600

/-- Model of DynamoDB `begins_with` (and Python `str.startswith`) on character
lists, so that concrete evaluations reduce. -/
def beginsWith (s pre : String) : Bool :=
  pre.data.isPrefixOf s.data

/-- Model of Python `str.split(sep)` on character lists (used for the
`item["PK"].split("#")` of the scheduler). -/
def splitChars (sep : Char) : List Char → List (List Char)
  | [] => [[]]
  | c :: cs =>
    if c = sep then [] :: splitChars sep cs
    else
      match splitChars sep cs with
      | [] => [[c]]
      | h :: t => (c :: h) :: t

/-- Model of Python `s.split(sep)` for a one-character separator. -/
def pySplit (s : String) (sep : Char) : List String :=
  (splitChars sep s.data).map (fun l => String.mk l)

/-- Decimal digit value of a character, `none` for a non-digit. -/
def digitVal (c : Char) : Option Nat :=
  if c.isDigit then some (c.toNat - 48) else none

/-- Parse a non-empty all-digit character list. -/
def parseNatChars : List Char → Option Nat
  | [] => none
  | cs =>
    cs.foldl (fun acc c =>
      match acc, digitVal c with
      | some n, some d => some (n * 10 + d)
      | _, _ => none) (some 0)

/-- Model of Python `int(s)` on the strings this repository stores: an optional
sign followed by digits; `none` is a `ValueError`. -/
def pyToInt (s : String) : Option Int :=
  match s.data with
  | '-' :: rest => (parseNatChars rest).map (fun n => -(n : Int))
  | '+' :: rest => (parseNatChars rest).map (fun n => (n : Int))
  | cs => (parseNatChars cs).map (fun n => (n : Int))

/-- Loop body of the scheduler `handler` (feed_scheduler lines 48-80) for one
scanned record: read `feed_id` from the PK, `feed_url` and `last_polled` by
subscript (a `KeyError` when absent), parse `last_polled` with the external
`strptime` (a `ValueError` when the format does not match), default the period
to "hourly" and the frequency to 1, and emit the FetchTask message when
`now >= last_polled + interval`. -/
def evalFeedRecord (strptime : String → Option Int) (now : Int) (item : DBRecord) :
    Except SchedErr (Option (String × String)) :=
  match (pySplit item.PK '#').get? 1 with
  | none => .error .indexError
  | some feed_id =>
    match item.feed_url with
    | none => .error .keyError
    | some feed_url =>
      match item.last_polled with
      | none => .error .keyError
      | some lp =>
        match strptime lp with
        | none => .error .valueError
        | some last_polled =>
          let update_period := item.update_period.getD "hourly"
          let frequency? : Option Int :=
            match item.update_frequency with
            | none => some 1
            | some s => pyToInt s
          match frequency? with
          | none => .error .valueError
          | some update_frequency =>
            let polling_interval := period_to_seconds update_period * update_frequency
            let next_polled := last_polled + polling_interval
            if next_polled ≤ now then .ok (some (feed_id, feed_url))
            else .ok none

/-- Sequential processing of the scanned records by the scheduler, collecting
the queued `{feed_id, feed_url}` messages in order; an exception aborts the
whole run. -/
def schedLoop (strptime : String → Option Int) (now : Int) :
    List DBRecord → Except SchedErr (List (String × String))
  | [] => .ok []
  | item :: rest =>
    match evalFeedRecord strptime now item with
    | .error e => .error e
    | .ok m =>
      match schedLoop strptime now rest with
      | .error e => .error e
      | .ok ms => .ok (m.toList ++ ms)

/-- Model of the scheduler `handler`: scan the table for records whose PK begins
with "FEED#" and whose SK begins with "SCHEDULE#" (the filter expression of
feed_scheduler lines 41-45), then evaluate each scanned record. -/
def scheduler_handler (strptime : String → Option Int) (now : Int) (st : Store) :
    Except SchedErr (List (String × String)) :=
  schedLoop strptime now
    (st.filter (fun r => beginsWith r.PK "FEED#" && beginsWith r.SK "SCHEDULE#"))

/-- Order-insensitive multiset equality of two string lists. -/
def multisetEqB : List String → List String → Bool
  | [], [] => true
  | [], _ :: _ => false
  | a :: as, bs => if bs.contains a then multisetEqB as (bs.erase a) else false

/-- Modelled from the spec: equality of the spec's claim C2 comparison, "same
keys and same values, with comparison of set-valued fields (such as categories)
order-insensitive" — every attribute equal structurally except `categories`,
which is compared as a multiset. -/
def specFieldSetEq (a b : DBRecord) : Bool :=
  a.PK == b.PK && a.SK == b.SK &&
  a.title == b.title && a.link == b.link && a.description == b.description &&
  a.author == b.author && a.published == b.published && a.updated == b.updated &&
  a.content == b.content && a.comments_link == b.comments_link &&
  a.feed_url == b.feed_url && a.feed_atom_id == b.feed_atom_id &&
  a.feed_title == b.feed_title && a.feed_link == b.feed_link &&
  a.feed_description == b.feed_description && a.feed_author == b.feed_author &&
  a.feed_language == b.feed_language && a.feed_pub_date == b.feed_pub_date &&
  a.feed_last_build_date == b.feed_last_build_date && a.feed_updated == b.feed_updated &&
  a.feed_ttl == b.feed_ttl && a.feed_image == b.feed_image &&
  a.last_polled == b.last_polled && a.update_period == b.update_period &&
  a.update_frequency == b.update_frequency && a.status == b.status &&
  a.error_count == b.error_count && a.last_error_message == b.last_error_message &&
  a.push_supported == b.push_supported && a.push_hub_url == b.push_hub_url &&
  a.push_topic_url == b.push_topic_url &&
  a.push_last_subscription == b.push_last_subscription && a.version == b.version &&
  (match a.categories, b.categories with
   | none, none => true
   | some x, some y => multisetEqB x y
   | _, _ => false)

/-! Concrete fixtures used by witnesses and counterexamples. -/

/-- A raw entry with a GUID and a title. -/
def c1entry : Entry := { guid := some "g1", title := some "Hello" }

/-- A parsed document holding just `c1entry`. -/
def c1doc : ParsedFeed := { entries := [c1entry] }

/-- The item record `store_feed_items` derives from `c1entry` for feed "f". -/
def c1rec : DBRecord := { PK := "FEED#f", SK := "ITEM#g1", title := some "Hello" }

/-- A stored item whose categories list is the same set in a different order. -/
def c2stored : DBRecord :=
  { PK := "FEED#f", SK := "ITEM#k", title := some "T", categories := some ["b", "a"] }

/-- An entry normalizing to the same field set as `c2stored`, categories
permuted. -/
def c2entry : Entry := { guid := some "k", title := some "T", tags := ["a", "b"] }

/-- A parsed document holding just `c2entry`. -/
def c2doc : ParsedFeed := { entries := [c2entry] }

/-- The item record `store_feed_items` derives from `c2entry` for feed "f". -/
def c2item : DBRecord :=
  { PK := "FEED#f", SK := "ITEM#k", title := some "T", categories := some ["a", "b"] }

/-- An entry carrying all three identity fields. -/
def c9entry : Entry := { guid := some "g", id := some "i", link := some "l" }

/-- A feed META record, for frame checks of item persistence. -/
def c10meta : DBRecord :=
  { PK := "FEED#f", SK := "META#f", feed_url := some "http://u/", error_count := some 0 }

/-- A healthy feed META record for the health-update claims. -/
def c8meta : DBRecord := { PK := "FEED#f8", SK := "META#f8", error_count := some 0 }

/-- The META record after one `update_feed_on_error [c8meta] "f8" "boom" "T"`. -/
def c8once : DBRecord :=
  { c8meta with
    error_count := some 1
    last_error_message := some "boom"
    last_polled := some "T" }

/-- A parse function whose result is always a parse failure (`bozo`). -/
def c6parse : String → ParsedFeed := fun _ => { bozo := true }

/-- A healthy META record for the fetch-failure claim. -/
def c6meta : DBRecord :=
  { PK := "FEED#f6", SK := "META#f6", feed_url := some "http://bad/", error_count := some 0 }

/-- A queued FetchTask message for feed "f6". -/
def c6rec : SqsRecord :=
  { body_feed_id := "f6", body_feed_url := "http://bad/", receiptHandle := "rh6" }

/-- Two raw entries sharing one GUID: their key set makes the unchunked
BatchGetItem request fail, a persistence error that is not a condition check. -/
def c7parse : String → ParsedFeed := fun _ =>
  { entries := [{ guid := some "dup", title := some "A" },
                { guid := some "dup", title := some "B" }] }

/-- A healthy META record for the persistence-error claim. -/
def c7meta : DBRecord :=
  { PK := "FEED#f7", SK := "META#f7", feed_url := some "http://dup/", error_count := some 0 }

/-- A queued FetchTask message for feed "f7". -/
def c7rec : SqsRecord :=
  { body_feed_id := "f7", body_feed_url := "http://dup/", receiptHandle := "rh7" }

/-- The META record after the persistence error of feed "f7" is recorded. -/
def c7meta1 : DBRecord :=
  { c7meta with
    error_count := some 1
    last_error_message := some (StoreErr.message .duplicateKeys)
    last_polled := some "T" }

/-- The uniqueness marker written when registering feed URL "http://u5/". -/
def c5marker : DBRecord :=
  { PK := "UNIQUE#FEED_URL#http://u5/", SK := "UNIQUE#FEED_URL#http://u5/" }

/-- The META record written when registering "http://u5/" under feed id "id1"
from an empty parsed document (all optional feed fields absent). -/
def c5meta : DBRecord :=
  { PK := "FEED#id1"
    SK := "META#id1"
    feed_url := some "http://u5/"
    update_period := some "hourly"
    update_frequency := some "1"
    status := some "active"
    error_count := some 0
    push_supported := some false }

/-- A feed META record that is long overdue (daily period, frequency 2, last
polled in 2020). -/
def c3meta : DBRecord :=
  { PK := "FEED#f1"
    SK := "META#f1"
    feed_url := some "http://sched/"
    last_polled := some "2020-01-01 00:00:00"
    update_period := some "daily"
    update_frequency := some "2" }

/-- A feed record with no `last_polled` attribute, exactly as registration
writes it (`prepare_item("S", "")` omits the attribute). -/
def c4rec : DBRecord :=
  { PK := "FEED#f1"
    SK := "META#f1"
    feed_url := some "http://sched/"
    update_period := some "daily"
    update_frequency := some "2" }

/-- The same never-polled feed record under a sort key the scheduler's scan
filter does select. -/
def c4sched : DBRecord :=
  { PK := "FEED#f1"
    SK := "SCHEDULE#f1"
    feed_url := some "http://sched/"
    update_period := some "daily"
    update_frequency := some "2" }

/-! Basic properties of the modelled store. -/

theorem keyMatch_eq_true {pk sk : String} {r : DBRecord} :
    keyMatch pk sk r = true ↔ r.PK = pk ∧ r.SK = sk := by
  simp [keyMatch]

theorem keyMatch_self (r : DBRecord) : keyMatch r.PK r.SK r = true := by
  simp [keyMatch]

theorem getItem_key {st : Store} {pk sk : String} {r : DBRecord}
    (h : getItem st pk sk = some r) : r.PK = pk ∧ r.SK = sk :=
  keyMatch_eq_true.mp (List.find?_some h)

theorem getItem_replaceAll_self {st : Store} (r : DBRecord)
    (h : (getItem st r.PK r.SK).isSome) :
    getItem (replaceAll st r) r.PK r.SK = some r := by
  induction st with
  | nil => simp [getItem] at h
  | cons x xs ih =>
    by_cases hx : keyMatch r.PK r.SK x = true
    · simp [replaceAll, getItem, hx, keyMatch_self]
    · have h' : (getItem xs r.PK r.SK).isSome := by
        simpa [getItem, List.find?_cons_of_neg _ hx] using h
      simpa [replaceAll, getItem, hx, List.find?_cons_of_neg] using ih h'

theorem keyMatch_eq_false_of_ne {pk sk : String} {r : DBRecord}
    (h : ¬(pk = r.PK ∧ sk = r.SK)) : keyMatch pk sk r = false := by
  rw [Bool.eq_false_iff]
  intro hb
  exact h ⟨(keyMatch_eq_true.mp hb).1.symm, (keyMatch_eq_true.mp hb).2.symm⟩

theorem getItem_replaceAll_ne {st : Store} {r : DBRecord} {pk sk : String}
    (h : ¬(pk = r.PK ∧ sk = r.SK)) :
    getItem (replaceAll st r) pk sk = getItem st pk sk := by
  induction st with
  | nil => simp [replaceAll, getItem]
  | cons x xs ih =>
    have step : replaceAll (x :: xs) r
        = (if keyMatch r.PK r.SK x then r else x) :: replaceAll xs r := rfl
    rw [step]
    by_cases hx : keyMatch r.PK r.SK x = true
    · rw [if_pos hx]
      have hxk := keyMatch_eq_true.mp hx
      have hr : keyMatch pk sk r = false := keyMatch_eq_false_of_ne h
      have hxm : keyMatch pk sk x = false := by
        apply keyMatch_eq_false_of_ne
        intro hc
        exact h ⟨by rw [hc.1, hxk.1], by rw [hc.2, hxk.2]⟩
      unfold getItem
      rw [List.find?_cons_of_neg _ (by simp [hr]), List.find?_cons_of_neg _ (by simp [hxm])]
      exact ih
    · rw [if_neg hx]
      unfold getItem
      by_cases hxm : keyMatch pk sk x = true
      · rw [List.find?_cons_of_pos _ hxm, List.find?_cons_of_pos _ hxm]
      · rw [List.find?_cons_of_neg _ hxm, List.find?_cons_of_neg _ hxm]
        exact ih

theorem getItem_putItem_self (st : Store) (r : DBRecord) :
    getItem (putItem st r) r.PK r.SK = some r := by
  unfold putItem
  by_cases h : (getItem st r.PK r.SK).isSome
  · rw [if_pos h]
    exact getItem_replaceAll_self r h
  · rw [if_neg h]
    unfold getItem at h ⊢
    rw [List.find?_append]
    rcases ho : st.find? (keyMatch r.PK r.SK) with _ | v
    · simp [keyMatch_self]
    · exact absurd (by simp [ho]) h

theorem getItem_putItem_ne {st : Store} {r : DBRecord} {pk sk : String}
    (h : ¬(pk = r.PK ∧ sk = r.SK)) :
    getItem (putItem st r) pk sk = getItem st pk sk := by
  unfold putItem
  by_cases hs : (getItem st r.PK r.SK).isSome
  · rw [if_pos hs]
    exact getItem_replaceAll_ne h
  · rw [if_neg hs]
    unfold getItem
    rw [List.find?_append]
    have hr : keyMatch pk sk r = false := keyMatch_eq_false_of_ne h
    rcases ho : st.find? (keyMatch pk sk) with _ | v <;> simp [hr]

theorem getItem_putItem_isSome {st : Store} {pk sk : String} (r : DBRecord)
    (h : (getItem st pk sk).isSome) :
    (getItem (putItem st r) pk sk).isSome := by
  by_cases hk : pk = r.PK ∧ sk = r.SK
  · rw [hk.1, hk.2, getItem_putItem_self]
    rfl
  · rw [getItem_putItem_ne hk]
    exact h

theorem getItem_foldl_ne {l : List DBRecord} {st : Store} {pk sk : String}
    (h : ∀ w ∈ l, ¬(pk = w.PK ∧ sk = w.SK)) :
    getItem (l.foldl putItem st) pk sk = getItem st pk sk := by
  induction l generalizing st with
  | nil => rfl
  | cons w ws ih =>
    rw [List.foldl_cons, ih (fun x hx => h x (List.mem_cons_of_mem _ hx)),
      getItem_putItem_ne (h w (List.mem_cons_self _ _))]

theorem getItem_foldl_isSome {l : List DBRecord} {st : Store} {pk sk : String}
    (h : (getItem st pk sk).isSome) :
    (getItem (l.foldl putItem st) pk sk).isSome := by
  induction l generalizing st with
  | nil => exact h
  | cons w ws ih =>
    rw [List.foldl_cons]
    exact ih (getItem_putItem_isSome w h)

theorem getItem_foldl_mem {l : List DBRecord} {st : Store} {r : DBRecord}
    (hnd : (itemKeys l).Nodup) (hm : r ∈ l) :
    getItem (l.foldl putItem st) r.PK r.SK = some r := by
  induction l generalizing st with
  | nil => cases hm
  | cons w ws ih =>
    rw [List.foldl_cons]
    have hnd' : ((w.PK, w.SK) :: itemKeys ws).Nodup := by
      simpa only [itemKeys, List.map_cons] using hnd
    rcases List.mem_cons.mp hm with rfl | hm'
    · have hne : ∀ x ∈ ws, ¬(r.PK = x.PK ∧ r.SK = x.SK) := by
        intro x hx hc
        have hmem : (x.PK, x.SK) ∈ itemKeys ws := List.mem_map_of_mem _ hx
        have hkeys : (r.PK, r.SK) ∉ itemKeys ws := (List.nodup_cons.mp hnd').1
        apply hkeys
        rw [hc.1, hc.2]
        exact hmem
      rw [getItem_foldl_ne hne, getItem_putItem_self]
    · exact ih (List.nodup_cons.mp hnd').2 hm'

theorem chunkFuel_flatten (fuel : Nat) :
    ∀ (l : List α) (bs : Nat), l.length ≤ fuel → bs ≠ 0 →
      (chunkFuel fuel l bs).flatten = l := by
  induction fuel with
  | zero =>
    intro l bs hl _
    have : l = [] := List.length_eq_zero.mp (Nat.le_zero.mp hl)
    subst this
    rfl
  | succ n ih =>
    intro l bs hl hbs
    cases l with
    | nil => rfl
    | cons x xs =>
      simp only [chunkFuel, List.flatten_cons]
      rw [ih ((x :: xs).drop bs) bs ?_ hbs, List.take_append_drop]
      simp only [List.length_drop, List.length_cons]
      have := List.length_cons x xs
      simp only [List.length_cons] at hl
      omega

theorem chunk_flatten (n : Nat) (hn : n ≠ 0) (l : List α) :
    (chunk l n).flatten = l :=
  chunkFuel_flatten l.length l n (Nat.le_refl _) hn

theorem foldl_chunk_putItem (l : List DBRecord) (st : Store) :
    (chunk l 25).foldl (fun s batch => batch.foldl putItem s) st
      = l.foldl putItem st := by
  conv_rhs => rw [← chunk_flatten 25 (by decide) l]
  rw [List.foldl_flatten]

theorem find?_filterMap_getItem (st : Store) {keys : List (String × String)}
    (hnd : keys.Nodup) {pk sk : String} (hm : (pk, sk) ∈ keys) :
    (keys.filterMap (fun k => getItem st k.1 k.2)).find? (keyMatch pk sk)
      = getItem st pk sk := by
  induction keys with
  | nil => cases hm
  | cons k ks ih =>
    rcases List.mem_cons.mp hm with heq | hmem
    · subst heq
      simp only [List.filterMap_cons]
      cases hg : getItem st pk sk with
      | none =>
        have hnk : (pk, sk) ∉ ks := (List.nodup_cons.mp hnd).1
        apply List.find?_eq_none.mpr
        intro x hx hkm
        obtain ⟨k', hk', hgx⟩ := List.mem_filterMap.mp hx
        have hxk := getItem_key hgx
        have hpk := keyMatch_eq_true.mp hkm
        apply hnk
        have h1 : k'.1 = pk := by rw [← hxk.1]; exact hpk.1
        have h2 : k'.2 = sk := by rw [← hxk.2]; exact hpk.2
        have hk'eq : k' = (pk, sk) := Prod.ext h1 h2
        rw [← hk'eq]
        exact hk'
      | some r =>
        have hk := getItem_key hg
        exact List.find?_cons_of_pos _ (keyMatch_eq_true.mpr hk)
    · have hnd' := List.nodup_cons.mp hnd
      have hkne : k ≠ (pk, sk) := by
        intro hc
        rw [hc] at hnd'
        exact hnd'.1 hmem
      simp only [List.filterMap_cons]
      cases hg : getItem st k.1 k.2 with
      | none => exact ih hnd'.2 hmem
      | some r =>
        have hk := getItem_key hg
        have hne : keyMatch pk sk r = false := by
          apply keyMatch_eq_false_of_ne
          intro hc
          apply hkne
          have h1 : k.1 = pk := by rw [← hk.1]; exact hc.1.symm
          have h2 : k.2 = sk := by rw [← hk.2]; exact hc.2.symm
          exact Prod.ext h1 h2
        rw [List.find?_cons_of_neg _ (by simp [hne])]
        exact ih hnd'.2 hmem

theorem store_feed_items_ok_elim {st : Store} {fid : String} {fd : ParsedFeed}
    {st' : Store} {ws : List DBRecord}
    (h : store_feed_items st fid fd = .ok (st', ws)) :
    (itemKeys (feedItemsOf fid fd)).isEmpty = false
    ∧ (itemKeys (feedItemsOf fid fd)).Nodup
    ∧ ws = (feedItemsOf fid fd).filter (fun item =>
        match getItem st item.PK item.SK with
        | none => true
        | some existing_item => existing_item != item)
    ∧ st' = ws.foldl putItem st := by
  simp only [store_feed_items, batch_get_item] at h
  by_cases he : (itemKeys (feedItemsOf fid fd)).isEmpty = true
  · rw [if_pos he] at h
    cases h
  · rw [if_neg he] at h
    by_cases hnd : (itemKeys (feedItemsOf fid fd)).Nodup
    · rw [if_pos hnd] at h
      simp only [Except.ok.injEq, Prod.mk.injEq] at h
      have hws : ws = (feedItemsOf fid fd).filter (fun item =>
          match getItem st item.PK item.SK with
          | none => true
          | some existing_item => existing_item != item) := by
        rw [← h.2]
        unfold items_to_write_of
        apply List.filter_congr
        intro x hx
        rw [find?_filterMap_getItem st hnd (List.mem_map_of_mem _ hx)]
      refine ⟨Bool.eq_false_iff.mpr he, hnd, hws, ?_⟩
      rw [← h.1, ← h.2, foldl_chunk_putItem]
    · rw [if_neg hnd] at h
      cases h

theorem stored_after_run {st st' : Store} {fid : String} {fd : ParsedFeed}
    {ws : List DBRecord} (h : store_feed_items st fid fd = .ok (st', ws)) :
    ∀ r ∈ feedItemsOf fid fd, getItem st' r.PK r.SK = some r := by
  obtain ⟨he, hnd, hws, hst⟩ := store_feed_items_ok_elim h
  intro r hr
  by_cases hp : (match getItem st r.PK r.SK with
      | none => true
      | some existing_item => existing_item != r) = true
  · have hrws : r ∈ ws := by
      rw [hws]
      exact List.mem_filter.mpr ⟨hr, hp⟩
    rw [hst]
    apply getItem_foldl_mem ?_ hrws
    have hsub : ws.Sublist (feedItemsOf fid fd) := by
      rw [hws]
      exact List.filter_sublist _
    exact List.Nodup.sublist (List.Sublist.map _ hsub) hnd
  · have hpf : getItem st r.PK r.SK = some r := by
      rcases hg : getItem st r.PK r.SK with _ | ex
      · rw [hg] at hp
        simp at hp
      · rw [hg] at hp
        simp only [bne_iff_ne, ne_eq, Bool.not_eq_true, Decidable.not_not] at hp
        rw [hp]
    rw [hst]
    rw [getItem_foldl_ne ?_]
    · exact hpf
    · intro w hw hc
      have hwmem : w ∈ feedItemsOf fid fd := by
        have := hws ▸ hw
        exact (List.mem_filter.mp this).1
      have hwpred : (match getItem st w.PK w.SK with
          | none => true
          | some existing_item => existing_item != w) = true := by
        have := hws ▸ hw
        exact (List.mem_filter.mp this).2
      have hwr : w = r := by
        apply List.inj_on_of_nodup_map hnd hwmem hr
        exact Prod.ext hc.1.symm hc.2.symm
      rw [hwr] at hwpred
      exact absurd hwpred (by simp [hp])

/-- C1: ingestion is idempotent — whenever `store_feed_items` succeeds on a
parsed document, running it again immediately on the identical document against
the resulting table succeeds with an empty write set (the change detector
selects no items) and issues zero additional writes, leaving the table as it
was. -/
theorem C1_store_feed_items_idempotent {st st' : Store} {fid : String}
    {fd : ParsedFeed} {ws : List DBRecord}
    (h : store_feed_items st fid fd = .ok (st', ws)) :
    store_feed_items st' fid fd = .ok (st', []) := by
  obtain ⟨he, hnd, _hws, _hst⟩ := store_feed_items_ok_elim h
  have hstored := stored_after_run h
  simp only [store_feed_items, batch_get_item]
  rw [if_neg (by simp [he]), if_pos hnd]
  have hw2 : items_to_write_of
      ((itemKeys (feedItemsOf fid fd)).filterMap (fun k => getItem st' k.1 k.2))
      (feedItemsOf fid fd) = [] := by
    unfold items_to_write_of
    rw [List.filter_eq_nil_iff]
    intro a ha
    rw [find?_filterMap_getItem st' hnd (List.mem_map_of_mem _ ha), hstored a ha]
    simp
  simp only [hw2]
  rfl

/-- Witness for C1: on the empty table the first run writes the single derived
item; the second run on the resulting table writes nothing. -/
theorem C1_store_feed_items_idempotent_witness :
    store_feed_items [] "f" c1doc = .ok ([c1rec], [c1rec])
    ∧ store_feed_items [c1rec] "f" c1doc = .ok ([c1rec], []) :=
  ⟨by rfl, @C1_store_feed_items_idempotent [] [c1rec] "f" c1doc [c1rec] (by rfl)⟩

/-- C2 counterexample: with a stored record whose field set equals the incoming
normalized item's under the spec's order-insensitive comparison of set-valued
fields (the categories lists are permutations of each other), the code still
selects the item into the write set, because `existing_item != item` compares
the stored list to the rebuilt one element-by-element in order.  The claim's
"if and only if" therefore fails at this input. -/
theorem C2_change_detection_counterexample :
    getItem [c2stored] "FEED#f" "ITEM#k" = some c2stored
    ∧ specFieldSetEq c2stored c2item = true
    ∧ c2stored ≠ c2item
    ∧ store_feed_items [c2stored] "f" c2doc = .ok ([c2item], [c2item]) :=
  ⟨by rfl, by decide, by decide, by rfl⟩

/-- C2 (amended): for a successful `store_feed_items` run, the write set
contains a normalized item exactly when the table holds no record under the
item's key that is structurally identical to it — equality is Python dict
equality, order-sensitive even for the list stored under the set-valued
`categories` attribute. -/
theorem C2_change_detection_membership {st st' : Store} {fid : String}
    {fd : ParsedFeed} {ws : List DBRecord}
    (h : store_feed_items st fid fd = .ok (st', ws)) :
    ∀ r ∈ feedItemsOf fid fd, (r ∈ ws ↔ getItem st r.PK r.SK ≠ some r) := by
  obtain ⟨_, _, hws, _⟩ := store_feed_items_ok_elim h
  intro r hr
  rw [hws, List.mem_filter]
  constructor
  · rintro ⟨_, hp⟩
    cases hg : getItem st r.PK r.SK with
    | none => simp
    | some ex =>
      rw [hg] at hp
      simp only [bne_iff_ne, ne_eq] at hp
      simp [hp]
  · intro hne
    refine ⟨hr, ?_⟩
    cases hg : getItem st r.PK r.SK with
    | none => rfl
    | some ex =>
      rw [hg] at hne
      simp only [ne_eq, Option.some.injEq] at hne
      simp [bne_iff_ne, hne]

/-- Witness for C2 (amended): the permuted-categories item is in the write set,
and indeed the stored record under its key is not structurally identical. -/
theorem C2_change_detection_membership_witness :
    c2item ∈ [c2item] ↔ getItem [c2stored] "FEED#f" "ITEM#k" ≠ some c2item :=
  @C2_change_detection_membership [c2stored] [c2item] "f" c2doc [c2item]
    (by rfl) c2item (by decide)

theorem itemSortKey_shape {e : Entry} {s : String} (h : itemSortKey e = some s) :
    ∃ k, s = "ITEM#" ++ k := by
  unfold itemSortKey at h
  cases hg : e.guid with
  | some g =>
    rw [hg] at h
    simp only [Option.some.injEq] at h
    exact ⟨g, h.symm⟩
  | none =>
    rw [hg] at h
    cases hi : e.id with
    | some i =>
      rw [hi] at h
      simp only [Option.some.injEq] at h
      exact ⟨i, h.symm⟩
    | none =>
      rw [hi] at h
      cases hl : e.link with
      | some l =>
        rw [hl] at h
        simp only [Option.some.injEq] at h
        exact ⟨l, h.symm⟩
      | none =>
        rw [hl] at h
        cases h

theorem feedItemsOf_key {fid : String} {fd : ParsedFeed} {r : DBRecord}
    (hr : r ∈ feedItemsOf fid fd) :
    r.PK = "FEED#" ++ fid ∧ ∃ k, r.SK = "ITEM#" ++ k := by
  obtain ⟨e, _, hne⟩ := List.mem_filterMap.mp hr
  unfold normalizeEntry at hne
  rcases hsk : itemSortKey e with _ | sk
  · rw [hsk] at hne
    cases hne
  · rw [hsk] at hne
    simp only [Option.some.injEq] at hne
    obtain ⟨k, hk⟩ := itemSortKey_shape hsk
    subst hne
    exact ⟨rfl, ⟨k, hk⟩⟩

/-- C10: item persistence is frame-bounded to the feed's item partition — every
record in the write set of a successful `store_feed_items(feed_id, ...)` run
has partition key `FEED#feed_id` and a sort key beginning with `ITEM#`; every
key outside that shape (the feed's META record, the uniqueness marker, every
other feed's records) reads back unchanged; and no key present before the run
is absent after it (no deletes). -/
theorem C10_store_feed_items_frame {st st' : Store} {fid : String}
    {fd : ParsedFeed} {ws : List DBRecord}
    (h : store_feed_items st fid fd = .ok (st', ws)) :
    (∀ r ∈ ws, r.PK = "FEED#" ++ fid ∧ ∃ k, r.SK = "ITEM#" ++ k)
    ∧ (∀ pk sk, ¬(pk = "FEED#" ++ fid ∧ ∃ k, sk = "ITEM#" ++ k) →
        getItem st' pk sk = getItem st pk sk)
    ∧ (∀ pk sk, (getItem st pk sk).isSome → (getItem st' pk sk).isSome) := by
  obtain ⟨_, _, hws, hst⟩ := store_feed_items_ok_elim h
  have hkey : ∀ r ∈ ws, r.PK = "FEED#" ++ fid ∧ ∃ k, r.SK = "ITEM#" ++ k := by
    intro r hr
    have hmem : r ∈ feedItemsOf fid fd := by
      rw [hws] at hr
      exact (List.mem_filter.mp hr).1
    exact feedItemsOf_key hmem
  refine ⟨hkey, ?_, ?_⟩
  · intro pk sk hnk
    rw [hst]
    apply getItem_foldl_ne
    intro w hw hc
    apply hnk
    obtain ⟨hpk, k, hsk⟩ := hkey w hw
    exact ⟨by rw [hc.1, hpk], ⟨k, by rw [hc.2, hsk]⟩⟩
  · intro pk sk hs
    rw [hst]
    exact getItem_foldl_isSome hs

/-- Witness for C10: persisting an item for feed "f" leaves the feed's META
record untouched. -/
theorem C10_store_feed_items_frame_witness :
    getItem [c10meta, c1rec] "FEED#f" "META#f" = getItem [c10meta] "FEED#f" "META#f" :=
  (@C10_store_feed_items_frame [c10meta] [c10meta, c1rec] "f" c1doc [c1rec]
      (by rfl)).2.1 "FEED#f" "META#f"
    (by
      rintro ⟨-, k, hk⟩
      have h2 := congrArg String.data hk
      rw [String.data_append] at h2
      simp at h2)

/-- C9: item identity fallback — the derived `item_key` is the entry's GUID
when present, else its ID, else its link (so the sort key is `ITEM#` followed
by that value); an entry with none of the three yields no canonical item, and
removing such an entry from a document leaves the normalized item list
unchanged. -/
theorem C9_item_identity_fallback (fid : String) (e : Entry) :
    (∀ g, e.guid = some g →
      ∃ r, normalizeEntry fid e = some r ∧ r.SK = "ITEM#" ++ g)
    ∧ (e.guid = none → ∀ i, e.id = some i →
      ∃ r, normalizeEntry fid e = some r ∧ r.SK = "ITEM#" ++ i)
    ∧ (e.guid = none → e.id = none → ∀ l, e.link = some l →
      ∃ r, normalizeEntry fid e = some r ∧ r.SK = "ITEM#" ++ l)
    ∧ (e.guid = none → e.id = none → e.link = none →
      normalizeEntry fid e = none
      ∧ ∀ (pre post : List Entry) (b : Bool) (f : FeedDict) (v : Option String),
          feedItemsOf fid ⟨b, pre ++ e :: post, f, v⟩
            = feedItemsOf fid ⟨b, pre ++ post, f, v⟩) := by
  refine ⟨?_, ?_, ?_, ?_⟩
  · intro g hg
    simp only [normalizeEntry, itemSortKey, hg]
    exact ⟨_, rfl, rfl⟩
  · intro hg i hi
    simp only [normalizeEntry, itemSortKey, hg, hi]
    exact ⟨_, rfl, rfl⟩
  · intro hg hi l hl
    simp only [normalizeEntry, itemSortKey, hg, hi, hl]
    exact ⟨_, rfl, rfl⟩
  · intro hg hi hl
    have hnone : normalizeEntry fid e = none := by
      simp [normalizeEntry, itemSortKey, hg, hi, hl]
    refine ⟨hnone, ?_⟩
    intro pre post b f v
    simp [feedItemsOf, List.filterMap_append, List.filterMap_cons, hnone]

/-- Witness for C9: with all three identity fields present the GUID wins. -/
theorem C9_item_identity_fallback_witness :
    ∃ r, normalizeEntry "f" c9entry = some r ∧ r.SK = "ITEM#" ++ "g" :=
  (C9_item_identity_fallback "f" c9entry).1 "g" (by rfl)

theorem getD_emptyRecord_key (st : Store) (pk sk : String) :
    ((getItem st pk sk).getD (emptyRecord pk sk)).PK = pk
    ∧ ((getItem st pk sk).getD (emptyRecord pk sk)).SK = sk := by
  cases hg : getItem st pk sk with
  | none => exact ⟨rfl, rfl⟩
  | some r => simpa using getItem_key hg

theorem putItem_eq_replaceAll_of_isSome {st : Store} {r : DBRecord}
    (h : (getItem st r.PK r.SK).isSome) : putItem st r = replaceAll st r := by
  unfold putItem
  rw [if_pos h]

theorem replaceAll_eq_self {st : Store} {r : DBRecord}
    (h : ∀ x ∈ st, keyMatch r.PK r.SK x = true → x = r) : replaceAll st r = st := by
  unfold replaceAll
  induction st with
  | nil => rfl
  | cons a l ih =>
    simp only [List.map_cons]
    have ha : (if keyMatch r.PK r.SK a then r else a) = a := by
      by_cases hm : keyMatch r.PK r.SK a = true
      · rw [if_pos hm]
        exact (h a (List.mem_cons_self _ _) hm).symm
      · rw [if_neg hm]
    rw [ha, ih (fun x hx hm => h x (List.mem_cons_of_mem _ hx) hm)]

theorem mem_putItem_matching {st : Store} {r x : DBRecord} (hx : x ∈ putItem st r)
    (hm : keyMatch r.PK r.SK x = true) : x = r := by
  unfold putItem at hx
  by_cases hs : (getItem st r.PK r.SK).isSome
  · rw [if_pos hs] at hx
    unfold replaceAll at hx
    obtain ⟨y, _, hy⟩ := List.mem_map.mp hx
    by_cases hmy : keyMatch r.PK r.SK y = true
    · rw [if_pos hmy] at hy
      exact hy.symm
    · rw [if_neg hmy] at hy
      rw [hy] at hmy
      exact absurd hm hmy
  · rw [if_neg hs] at hx
    rcases List.mem_append.mp hx with hx1 | hx2
    · have : getItem st r.PK r.SK = none := by
        cases ho : getItem st r.PK r.SK with
        | none => rfl
        | some v => exact absurd (by rw [ho]; rfl) hs
      have := List.find?_eq_none.mp this x hx1
      exact absurd hm this
    · simpa using hx2

theorem putItem_putItem (st : Store) (r : DBRecord) :
    putItem (putItem st r) r = putItem st r := by
  rw [putItem_eq_replaceAll_of_isSome (by rw [getItem_putItem_self]; rfl)]
  exact replaceAll_eq_self (fun x hx hm => mem_putItem_matching hx hm)

/-- C8 counterexample: `onFailure` is not an idempotent overwrite — applying
`update_feed_on_error` twice with identical arguments leaves `error_count` at
2, while one application leaves it at 1, because the update uses
`ADD error_count 1`. -/
theorem C8_on_error_counterexample :
    update_feed_on_error [c8meta] "f8" "boom" "T"
      = [{ c8meta with
             error_count := some 1
             last_error_message := some "boom"
             last_polled := some "T" }]
    ∧ update_feed_on_error (update_feed_on_error [c8meta] "f8" "boom" "T") "f8" "boom" "T"
      = [{ c8meta with
             error_count := some 2
             last_error_message := some "boom"
             last_polled := some "T" }]
    ∧ update_feed_on_error (update_feed_on_error [c8meta] "f8" "boom" "T") "f8" "boom" "T"
      ≠ update_feed_on_error [c8meta] "f8" "boom" "T" :=
  ⟨by decide, by decide, by decide⟩

/-- C8 (amended): `onSuccess` (`update_feed_on_success`) is an idempotent
overwrite — applying it twice with the same arguments equals applying it once.
`onFailure` (`update_feed_on_error`) is idempotent in `last_error_message` and
`last_polled` but not in `error_count`: a second identical application equals
overwriting the once-updated META record with its `error_count` incremented by
one more. -/
theorem C8_health_update_idempotence (st : Store) (fid msg t : String) :
    update_feed_on_success (update_feed_on_success st fid t) fid t
      = update_feed_on_success st fid t
    ∧ (∀ r1, getItem (update_feed_on_error st fid msg t)
          ("FEED#" ++ fid) ("META#" ++ fid) = some r1 →
        update_feed_on_error (update_feed_on_error st fid msg t) fid msg t
          = putItem (update_feed_on_error st fid msg t)
              { r1 with
                error_count := some (r1.error_count.getD 0 + 1)
                last_error_message := some msg
                last_polled := some t }) := by
  constructor
  · simp only [update_feed_on_success]
    have hbase := getD_emptyRecord_key st ("FEED#" ++ fid) ("META#" ++ fid)
    generalize (getItem st ("FEED#" ++ fid) ("META#" ++ fid)).getD
        (emptyRecord ("FEED#" ++ fid) ("META#" ++ fid)) = base at hbase ⊢
    have hget : getItem
        (putItem st { base with
                      error_count := some 0
                      last_error_message := some ""
                      last_polled := some t })
        ("FEED#" ++ fid) ("META#" ++ fid)
        = some { base with
                 error_count := some 0
                 last_error_message := some ""
                 last_polled := some t } := by
      rw [← hbase.1, ← hbase.2]
      exact getItem_putItem_self st _
    rw [hget]
    exact putItem_putItem st _
  · intro r1 hr1
    set st1 := update_feed_on_error st fid msg t with hst1
    simp only [update_feed_on_error]
    rw [hr1]
    rfl

/-- Witness for C8 (amended): both parts at the concrete healthy record. -/
theorem C8_health_update_idempotence_witness :
    (update_feed_on_success (update_feed_on_success [c8meta] "f8" "T") "f8" "T"
      = update_feed_on_success [c8meta] "f8" "T")
    ∧ (update_feed_on_error (update_feed_on_error [c8meta] "f8" "boom" "T") "f8" "boom" "T"
      = putItem (update_feed_on_error [c8meta] "f8" "boom" "T")
          { c8once with
            error_count := some (c8once.error_count.getD 0 + 1)
            last_error_message := some "boom"
            last_polled := some "T" }) :=
  ⟨(C8_health_update_idempotence [c8meta] "f8" "boom" "T").1,
   (C8_health_update_idempotence [c8meta] "f8" "boom" "T").2 c8once (by decide)⟩

/-- C6 counterexample: a fetch task whose document fails to parse is skipped
silently by `feed_message_handler` — the table is returned unchanged, so the
feed's `error_count` stays 0 and `last_polled` stays absent, and no message is
deleted; `onFailure` is never invoked, contradicting the claim that the failure
is recorded and `last_polled` advances. -/
theorem C6_fetch_failure_counterexample :
    feed_message_handler c6parse "T" [c6meta] [c6rec] = .ok ([c6meta], [])
    ∧ getItem [c6meta] "FEED#f6" "META#f6" = some c6meta
    ∧ c6meta.error_count = some 0
    ∧ c6meta.last_polled = none :=
  ⟨by rfl, by rfl, by rfl, by rfl⟩

/-- C6 (amended): for every processed fetch task whose feed document fails to
parse (`bozo`), the queue consumer stops before persistence and before any
health bookkeeping: the record is skipped with the table untouched,
`update_feed_on_error` is not called, `error_count` and `last_polled` are left
unchanged, and the message is not deleted. -/
theorem C6_fetch_failure_skips_health_update (parse : String → ParsedFeed)
    (now : String) (st : Store) (r : SqsRecord) (rest : List SqsRecord)
    (hb : (parse r.body_feed_url).bozo = true) :
    feed_message_handler parse now st (r :: rest)
      = feed_message_handler parse now st rest := by
  simp [feed_message_handler, hb]

/-- Witness for C6 (amended): the failing task contributes nothing. -/
theorem C6_fetch_failure_skips_health_update_witness :
    feed_message_handler c6parse "T" [c6meta] [c6rec]
      = feed_message_handler c6parse "T" [c6meta] [] :=
  C6_fetch_failure_skips_health_update c6parse "T" [c6meta] c6rec [] (by rfl)

/-- C7 counterexample: a persistence error that is not a condition-check
violation (here the duplicate-key ValidationException of the unchunked
BatchGetItem) is caught by the broad `except` of `feed_message_handler`: the
failure is recorded via `update_feed_on_error`, but the handler then continues
and returns normally (`.ok`), so the error is never re-raised to the caller,
contradicting the claim; the message is merely left undeleted. -/
theorem C7_persistence_error_counterexample :
    store_feed_items [c7meta] "f7" (c7parse "http://dup/") = .error .duplicateKeys
    ∧ feed_message_handler c7parse "T" [c7meta] [c7rec] = .ok ([c7meta1], []) :=
  ⟨by rfl, by rfl⟩

/-- C7 (amended): on a persistence error other than a condition-check
violation, the queue consumer calls `onFailure` with the error's message and
then swallows the error — it continues with the remaining records and never
propagates an exception to its caller (so the task's message is not deleted and
redelivery is left to the queue's visibility timeout, not to a re-raised
error). -/
theorem C7_persistence_error_swallowed (parse : String → ParsedFeed)
    (now : String) (st : Store) (r : SqsRecord) (rest : List SqsRecord)
    (e : StoreErr)
    (hb : (parse r.body_feed_url).bozo = false)
    (he : store_feed_items st r.body_feed_id (parse r.body_feed_url) = .error e) :
    feed_message_handler parse now st (r :: rest)
      = feed_message_handler parse now
          (update_feed_on_error st r.body_feed_id (StoreErr.message e) now) rest
    ∧ ∀ (st2 : Store) (recs : List SqsRecord), ∃ out,
        feed_message_handler parse now st2 recs = .ok out := by
  constructor
  · simp [feed_message_handler, hb, he]
  · intro st2 recs
    induction recs generalizing st2 with
    | nil => exact ⟨(st2, []), rfl⟩
    | cons a l ih =>
      by_cases hba : (parse a.body_feed_url).bozo = true
      · rw [show feed_message_handler parse now st2 (a :: l)
            = feed_message_handler parse now st2 l by simp [feed_message_handler, hba]]
        exact ih st2
      · cases hs : store_feed_items st2 a.body_feed_id (parse a.body_feed_url) with
        | error e2 =>
          rw [show feed_message_handler parse now st2 (a :: l)
              = feed_message_handler parse now
                  (update_feed_on_error st2 a.body_feed_id (StoreErr.message e2) now) l by
            simp [feed_message_handler, hba, hs]]
          exact ih _
        | ok p =>
          obtain ⟨pst, pws⟩ := p
          obtain ⟨out, hout⟩ := ih (update_feed_on_success pst a.body_feed_id now)
          refine ⟨(out.1, a.receiptHandle :: out.2), ?_⟩
          simp [feed_message_handler, hba, hs, hout]

/-- Witness for C7 (amended): the duplicate-key persistence failure is recorded
and the loop moves on. -/
theorem C7_persistence_error_swallowed_witness :
    feed_message_handler c7parse "T" [c7meta] [c7rec]
      = feed_message_handler c7parse "T"
          (update_feed_on_error [c7meta] "f7" (StoreErr.message .duplicateKeys) "T") [] :=
  (C7_persistence_error_swallowed c7parse "T" [c7meta] c7rec [] .duplicateKeys
    (by rfl) (by rfl)).1

/-- C5: feed-URL uniqueness — after any successful registration of a URL, a
second registration attempt for the same URL (any generated feed id, any
non-bozo parse result) fails the marker's condition check, the transaction is
cancelled, and `create_feed` answers the user-facing 409-style conflict (status
400) with the table exactly as it was: no second META record and no partial
state. -/
theorem C5_feed_url_uniqueness {st st' : Store} {url id1 : String}
    {fd1 : ParsedFeed} (h : store_feed_metadata st url id1 fd1 = .ok st') :
    ∀ (id2 : String) (fd2 : ParsedFeed), fd2.bozo = false →
      create_feed st' url id2 fd2 = (400, st') := by
  intro id2 fd2 hbozo
  have hmark : (getItem st' ("UNIQUE#FEED_URL#" ++ url)
      ("UNIQUE#FEED_URL#" ++ url)).isSome := by
    simp only [store_feed_metadata] at h
    by_cases hc : (getItem st ("UNIQUE#FEED_URL#" ++ url)
        ("UNIQUE#FEED_URL#" ++ url)).isSome
    · rw [if_pos hc] at h
      cases h
    · rw [if_neg hc] at h
      simp only [Except.ok.injEq] at h
      subst h
      apply getItem_putItem_isSome
      have h2 : getItem
          (putItem st (emptyRecord ("UNIQUE#FEED_URL#" ++ url) ("UNIQUE#FEED_URL#" ++ url)))
          ("UNIQUE#FEED_URL#" ++ url) ("UNIQUE#FEED_URL#" ++ url)
          = some (emptyRecord ("UNIQUE#FEED_URL#" ++ url) ("UNIQUE#FEED_URL#" ++ url)) :=
        getItem_putItem_self st _
      rw [h2]
      rfl
  unfold create_feed
  rw [if_neg (by simp [hbozo])]
  have hfail : store_feed_metadata st' url id2 fd2 = .error .transactionCanceled := by
    simp only [store_feed_metadata]
    rw [if_pos hmark]
  rw [hfail]

/-- Witness for C5: registering "http://u5/" on the empty table and then
attempting it again. -/
theorem C5_feed_url_uniqueness_witness :
    create_feed [c5marker, c5meta] "http://u5/" "id2" {} = (400, [c5marker, c5meta]) :=
  @C5_feed_url_uniqueness [] [c5marker, c5meta] "http://u5/" "id1" {} (by rfl)
    "id2" {} (by rfl)

/-- C3: evaluation of the Scheduler over a table holding one due feed META
record enqueues nothing, for every clock reading and every timestamp parser:
the scan's filter expression matches sort keys beginning with `SCHEDULE#`,
while feed metadata records are stored under `META#{feed_id}`, so the scan
returns no records at all. -/
theorem C3_scheduler_emits_no_task_for_meta (strptime : String → Option Int)
    (now : Int) : scheduler_handler strptime now [c3meta] = .ok [] := by
  unfold scheduler_handler
  rw [show ([c3meta] : Store).filter
      (fun r => beginsWith r.PK "FEED#" && beginsWith r.SK "SCHEDULE#") = [] by decide]
  rfl

/-- C4: a feed record carrying no `last_polled` attribute — the state
registration leaves every new feed in — is not treated as immediately due: the
loop body raises `KeyError` on the `item["last_polled"]` subscript before any
due-ness comparison, and a scan that does select such a record aborts the whole
evaluation run with that error. -/
theorem C4_missing_last_polled_raises (strptime : String → Option Int)
    (now : Int) :
    evalFeedRecord strptime now c4rec = .error .keyError
    ∧ scheduler_handler strptime now [c4sched] = .error .keyError := by
  constructor
  · rfl
  · rfl
